import Mathlib

/-!
Shallow embedding of the content-type validation engine of this repository
(src/models/EntryType.js): the definition-time constraint catalog
(`commonFieldConstraints`, the per-kind constraint objects and their merge
`fieldTypeConstraints`), the definition validator (`$beforeValidate`), the
static schema document (`jsonSchema`, its `fields.items.oneOf` member), and
the value-time ruleset compiler (`validateEntryFields`).

JSON values are modelled by `Value` (arrays are flat, which covers every
shape the engine inspects: choice lists, media/link id arrays, string
lists).  JavaScript numbers are modelled by `ℚ`.  Attributes that may be
absent on a submitted object are `Option`s.

The generic validator engine (`utils/validate`, a wrapper around
validate.js with the custom validators `lessThanAttribute`, `arrayLength`,
`uniqueArray`, `choicesUnion`, `boolean`, `media`, `entries`,
`arrayOfStrings`) is not part of the sources provided; its semantics are
modelled from the spec where indicated below.  The constraint *data* fed to
it is translated directly from src/models/EntryType.js.
-/

/-- Atomic JSON values appearing inside submitted arrays. -/
inductive Atom where
  | str (s : String)
  | num (q : ℚ)
  | bool (b : Bool)
deriving DecidableEq, Repr

/-- JSON values submitted for an attribute or a record field. -/
inductive Value where
  | str (s : String)
  | num (q : ℚ)
  | bool (b : Bool)
  | arr (elems : List Atom)
deriving DecidableEq, Repr

/-- Constraint violations produced by the validator engine. -/
inductive Violation where
  | blank
  | tooShort
  | tooLong
  | invalidLength
  | notNumber
  | notInteger
  | tooSmall
  | tooBig
  | notBoolean
  | notIncluded
  | badArrayLength
  | notUniqueArray
  | notLessThan
  | notUrl
  | notEmail
  | notDatetime
  | notDate
  | notInChoices
  | badColorFormat
  | mediaNotFound
  | entriesNotFound
  | notArrayOfStrings
deriving DecidableEq, Repr

/-- A field definition object, as stored on an entry type's `fields` array.
`fieldType` is the tag; every other attribute may be absent on a candidate
definition. -/
structure FieldDef where
  fieldType : String
  name : Option String := none
  label : Option String := none
  description : Option String := none
  required : Option Bool := none
  disabled : Option Bool := none
  minLength : Option Int := none
  maxLength : Option Int := none
  minValue : Option ℚ := none
  maxValue : Option ℚ := none
  format : Option String := none
  choices : Option (List String) := none
  labelTrue : Option String := none
  labelFalse : Option String := none
deriving DecidableEq, Repr

/-- Attribute access on a field-definition object, mirroring JavaScript
property lookup (`field[attr]`). -/
def FieldDef.getAttr (f : FieldDef) : String → Option Value
  | "fieldType" => some (.str f.fieldType)
  | "name" => f.name.map .str
  | "label" => f.label.map .str
  | "description" => f.description.map .str
  | "required" => f.required.map .bool
  | "disabled" => f.disabled.map .bool
  | "minLength" => f.minLength.map (fun n => .num (n : ℚ))
  | "maxLength" => f.maxLength.map (fun n => .num (n : ℚ))
  | "minValue" => f.minValue.map .num
  | "maxValue" => f.maxValue.map .num
  | "format" => f.format.map .str
  | "choices" => f.choices.map (fun cs => .arr (cs.map .str))
  | "labelTrue" => f.labelTrue.map .str
  | "labelFalse" => f.labelFalse.map .str
  | _ => none

/-- Modelled from the spec: validate.js treats empty strings and empty
arrays as blank for the purpose of presence checks. -/
def isEmptyValue : Value → Bool
  | .str s => s == ""
  | .arr es => es.isEmpty
  | _ => false

/-- A `length: {minimum, maximum}` rule. -/
structure LengthRule where
  minimum : Option Int := none
  maximum : Option Int := none
deriving DecidableEq, Repr

/-- A `numericality` rule with optional bounds and integer-only flag. -/
structure NumRule where
  greaterThanOrEqualTo : Option ℚ := none
  lessThanOrEqualTo : Option ℚ := none
  onlyInteger : Bool := false
deriving DecidableEq, Repr

/-- An `arrayLength: {is, minimum, maximum}` rule. -/
structure ArrayLengthRule where
  is : Option Int := none
  minimum : Option Int := none
  maximum : Option Int := none
deriving DecidableEq, Repr

/-- The two COLOR value patterns (`#` + 6 hex digits, `#` + 8 hex digits). -/
inductive ColorRule where
  | rgb
  | rgba
deriving DecidableEq, Repr

/-- The per-field value ruleset assembled by `validateEntryFields` for one
field (the JS object `fieldConstraints`).  Every component defaults to
"no rule". -/
structure ValueConstraints where
  presence : Bool := false
  url : Bool := false
  email : Bool := false
  length : Option LengthRule := none
  datetime : Bool := false
  date : Bool := false
  boolean : Bool := false
  numericality : Option NumRule := none
  choicesUnion : Option (List String) := none
  arrayLength : Option ArrayLengthRule := none
  uniqueArray : Bool := false
  colorFormat : Option ColorRule := none
  media : Option Int := none
  entries : Option Int := none
  arrayOfStrings : Bool := false
deriving DecidableEq, Repr

/-- Translation of the per-field ruleset construction in
`EntryType.validateEntryFields` (src/models/EntryType.js, the body of the
`for (let field of this.fields)` loop after the `disabled` guard).  The
branch structure, including the unreachable `TEXT` test inside the
`else if`, follows the source line by line. -/
def buildFieldConstraints (field : FieldDef) (projectId : Int) : ValueConstraints :=
  let fc : ValueConstraints := {}
  let fc := if field.required == some true then { fc with presence := true } else fc
  if field.fieldType == "TEXT" then
    if field.format == some "uri" then { fc with url := true }
    else if field.format == some "email" then { fc with email := true }
    else fc
  else if field.fieldType == "TEXT" || field.fieldType == "LONGTEXT" then
    { fc with length := some { minimum := field.minLength, maximum := field.maxLength } }
  else if field.fieldType == "DATE" then
    if field.format == some "datetime" then { fc with datetime := true }
    else if field.format == some "date" then { fc with date := true }
    else fc
  else if field.fieldType == "BOOLEAN" then
    { fc with boolean := true }
  else if field.fieldType == "NUMBER" then
    if field.format == some "integer" then
      { fc with numericality := some { greaterThanOrEqualTo := field.minValue,
                                       lessThanOrEqualTo := field.maxValue,
                                       onlyInteger := true } }
    else
      { fc with numericality := some { greaterThanOrEqualTo := field.minValue,
                                       lessThanOrEqualTo := field.maxValue } }
  else if field.fieldType == "CHOICE" then
    let fc := { fc with choicesUnion := some (field.choices.getD []) }
    if field.format == some "single" then
      { fc with arrayLength := some { is := some 1 } }
    else if field.format == some "multiple" then
      { fc with arrayLength := some { minimum := some 1 }, uniqueArray := true }
    else fc
  else if field.fieldType == "COLOR" then
    if field.format == some "rgb" then { fc with colorFormat := some .rgb }
    else if field.format == some "rgba" then { fc with colorFormat := some .rgba }
    else fc
  else if field.fieldType == "MEDIA" then
    { fc with media := some projectId,
              arrayLength := some { minimum := field.minLength, maximum := field.maxLength } }
  else if field.fieldType == "LINK" then
    { fc with entries := some projectId,
              arrayLength := some { minimum := field.minLength, maximum := field.maxLength } }
  else if field.fieldType == "LIST" then
    { fc with arrayOfStrings := true,
              arrayLength := some { minimum := field.minLength, maximum := field.maxLength } }
  else fc

/-- External collaborators injected into value validation: format parsers
(url, email, datetime, date) and the referential lookup capabilities of
the spec (`mediaExistsInProject`, `entriesExistInProject`). -/
structure ExternalCheckers where
  isUrl : String → Bool
  isEmail : String → Bool
  isDatetime : String → Bool
  isDate : String → Bool
  mediaExistsInProject : List Atom → Int → Bool
  entriesExistInProject : List Atom → Int → Bool

/-- A checker instance whose parsers accept nothing and whose lookups find
nothing; used to instantiate theorems whose outcome cannot depend on the
collaborators. -/
def nullCheckers : ExternalCheckers where
  isUrl := fun _ => false
  isEmail := fun _ => false
  isDatetime := fun _ => false
  isDate := fun _ => false
  mediaExistsInProject := fun _ _ => false
  entriesExistInProject := fun _ _ => false

/-- Length of a value for the `length` validator (characters of a string,
elements of an array). -/
def lengthOf : Value → Option Int
  | .str s => some (s.length : Int)
  | .arr es => some (es.length : Int)
  | _ => none

/-- Modelled from the spec: presence rule — a required attribute must be
present and non-blank (blank only forbidden when `allowEmpty` is false). -/
def checkPresence (allowEmpty : Bool) (v : Option Value) : List Violation :=
  match v with
  | none => [.blank]
  | some x => if !allowEmpty && isEmptyValue x then [.blank] else []

/-- Modelled from the spec: string/array length within `[minimum, maximum]`. -/
def checkLengthRule (rule : LengthRule) (v : Value) : List Violation :=
  match lengthOf v with
  | none => [.invalidLength]
  | some n =>
    (match rule.minimum with
     | some m => if n < m then [.tooShort] else []
     | none => []) ++
    (match rule.maximum with
     | some m => if n > m then [.tooLong] else []
     | none => [])

/-- Modelled from the spec: numeric, within `[minValue, maxValue]`,
integer-only when the rule demands it. -/
def checkNumRule (rule : NumRule) (v : Value) : List Violation :=
  match v with
  | .num q =>
    (match rule.greaterThanOrEqualTo with
     | some g => if q < g then [.tooSmall] else []
     | none => []) ++
    (match rule.lessThanOrEqualTo with
     | some l => if q > l then [.tooBig] else []
     | none => []) ++
    (if rule.onlyInteger && q.den != 1 then [.notInteger] else [])
  | _ => [.notNumber]

/-- Modelled from the spec: exact / bounded array length. -/
def checkArrayLengthRule (rule : ArrayLengthRule) (v : Value) : List Violation :=
  match v with
  | .arr es =>
    (match rule.is with
     | some k => if (es.length : Int) ≠ k then [.badArrayLength] else []
     | none => []) ++
    (match rule.minimum with
     | some m => if (es.length : Int) < m then [.badArrayLength] else []
     | none => []) ++
    (match rule.maximum with
     | some m => if (es.length : Int) > m then [.badArrayLength] else []
     | none => [])
  | _ => [.badArrayLength]

/-- Modelled from the spec: every submitted value must be a member of the
field's `choices` list. -/
def checkChoicesUnion (cs : List String) (v : Value) : List Violation :=
  match v with
  | .arr es =>
    if es.all (fun a => match a with | .str s => cs.contains s | _ => false)
    then [] else [.notInChoices]
  | _ => [.notInChoices]

/-- Modelled from the spec: all array entries unique. -/
def checkUniqueArray (v : Value) : List Violation :=
  match v with
  | .arr es => if es.dedup.length == es.length then [] else [.notUniqueArray]
  | _ => []

/-- Hexadecimal digit test for the COLOR patterns. -/
def isHexChar (c : Char) : Bool :=
  c.isDigit || ('a' ≤ c && c ≤ 'f') || ('A' ≤ c && c ≤ 'F')

/-- The COLOR regular expressions: `#` followed by exactly 6 (rgb) or 8
(rgba) hexadecimal digits. -/
def colorMatches (r : ColorRule) (s : String) : Bool :=
  let digits : Nat := match r with | .rgb => 6 | .rgba => 8
  match s.toList with
  | [] => false
  | c :: rest => c == '#' && rest.length == digits && rest.all isHexChar

/-- Modelled from the spec: value must match the COLOR pattern. -/
def checkColorRule (r : ColorRule) (v : Value) : List Violation :=
  match v with
  | .str s => if colorMatches r s then [] else [.badColorFormat]
  | _ => [.badColorFormat]

/-- Modelled from the spec: LIST values must be arrays of strings. -/
def checkArrayOfStrings (v : Value) : List Violation :=
  match v with
  | .arr es =>
    if es.all (fun a => match a with | .str _ => true | _ => false)
    then [] else [.notArrayOfStrings]
  | _ => [.notArrayOfStrings]

/-- Modelled from the spec: evaluation of one field's value ruleset against
the submitted value.  The presence rule sees absent values; every other
rule is skipped when the value is absent. -/
def checkValueConstraints (ext : ExternalCheckers) (c : ValueConstraints)
    (v : Option Value) : List Violation :=
  (if c.presence then checkPresence false v else []) ++
  match v with
  | none => []
  | some x =>
    (if c.url then
      (match x with
       | .str s => if ext.isUrl s then [] else [.notUrl]
       | _ => [.notUrl]) else []) ++
    (if c.email then
      (match x with
       | .str s => if ext.isEmail s then [] else [.notEmail]
       | _ => [.notEmail]) else []) ++
    (match c.length with
     | some r => checkLengthRule r x
     | none => []) ++
    (if c.datetime then
      (match x with
       | .str s => if ext.isDatetime s then [] else [.notDatetime]
       | _ => [.notDatetime]) else []) ++
    (if c.date then
      (match x with
       | .str s => if ext.isDate s then [] else [.notDate]
       | _ => [.notDate]) else []) ++
    (if c.boolean then
      (match x with
       | .bool _ => []
       | _ => [.notBoolean]) else []) ++
    (match c.numericality with
     | some r => checkNumRule r x
     | none => []) ++
    (match c.choicesUnion with
     | some cs => checkChoicesUnion cs x
     | none => []) ++
    (match c.arrayLength with
     | some r => checkArrayLengthRule r x
     | none => []) ++
    (if c.uniqueArray then checkUniqueArray x else []) ++
    (match c.colorFormat with
     | some r => checkColorRule r x
     | none => []) ++
    (match c.media with
     | some pid =>
       (match x with
        | .arr es => if ext.mediaExistsInProject es pid then [] else [.mediaNotFound]
        | _ => [.mediaNotFound])
     | none => []) ++
    (match c.entries with
     | some pid =>
       (match x with
        | .arr es => if ext.entriesExistInProject es pid then [] else [.entriesNotFound]
        | _ => [.entriesNotFound])
     | none => []) ++
    (if c.arrayOfStrings then checkArrayOfStrings x else [])

/-- The error-map key used for a field: its name (JavaScript coerces an
absent name to the string "undefined" when used as an object key). -/
def fieldKey (f : FieldDef) : String :=
  f.name.getD "undefined"

/-- The per-record constraint map built by `validateEntryFields`: one entry
per non-disabled field, keyed by field name. -/
def valueConstraintMap (fields : List FieldDef) (projectId : Int) :
    List (String × ValueConstraints) :=
  (fields.filter (fun f => f.disabled != some true)).map
    (fun f => (fieldKey f, buildFieldConstraints f projectId))

/-- Lookup of a submitted record value by field name. -/
def lookupRecord (record : List (String × Value)) (n : String) : Option Value :=
  (record.find? (fun p => p.1 == n)).map Prod.snd

/-- Modelled from the spec: `validate.async(record, constraints)` evaluates
every constrained attribute and returns the mapping from field name to its
violated rules; an empty mapping means success. -/
def validateEntryFieldsModel (ext : ExternalCheckers) (fields : List FieldDef)
    (projectId : Int) (record : List (String × Value)) :
    List (String × List Violation) :=
  (valueConstraintMap fields projectId).filterMap (fun p =>
    let vs := checkValueConstraints ext p.2 (lookupRecord record p.1)
    if vs = [] then none else some (p.1, vs))

/-- Violations recorded for one key of an error mapping (empty when the key
is absent). -/
def violationsAt (m : List (String × List Violation)) (k : String) : List Violation :=
  ((m.find? (fun p => p.1 == k)).map Prod.snd).getD []

/-- A definition-time constraint object for one attribute, as written in the
constraint tables of src/models/EntryType.js.  `presence = some b` models
`presence: {allowEmpty: b}` (`presence: true` is `allowEmpty: false`). -/
structure AttrConstraint where
  presence : Option Bool := none
  length : Option LengthRule := none
  numericality : Option NumRule := none
  boolean : Bool := false
  inclusion : Option (List String) := none
  arrayLength : Option ArrayLengthRule := none
  uniqueArray : Bool := false
  lessThanAttribute : Option String := none
deriving DecidableEq, Repr

/-- Modelled from the spec: evaluation of one attribute's definition-time
constraint object by the validator engine (`utils/validate` is outside the
provided sources).  The presence rule sees absent values; every other rule
is skipped when the value is absent.  `lessThanAttribute` compares the
attribute's value with another attribute of the same object, read through
`getOther`, and demands strict ordering. -/
def checkAttrConstraint (c : AttrConstraint) (v : Option Value)
    (getOther : String → Option Value) : List Violation :=
  (match c.presence with
   | some allowEmpty => checkPresence allowEmpty v
   | none => []) ++
  match v with
  | none => []
  | some x =>
    (match c.length with
     | some r => checkLengthRule r x
     | none => []) ++
    (match c.numericality with
     | some r => checkNumRule r x
     | none => []) ++
    (if c.boolean then
      (match x with
       | .bool _ => []
       | _ => [.notBoolean]) else []) ++
    (match c.inclusion with
     | some ws =>
       (match x with
        | .str s => if ws.contains s then [] else [.notIncluded]
        | _ => [.notIncluded])
     | none => []) ++
    (match c.arrayLength with
     | some r => checkArrayLengthRule r x
     | none => []) ++
    (if c.uniqueArray then checkUniqueArray x else []) ++
    (match c.lessThanAttribute with
     | some other =>
       (match getOther other with
        | some (.num b) =>
          (match x with
           | .num a => if a < b then [] else [.notLessThan]
           | _ => [.notLessThan])
        | _ => [.notLessThan])
     | none => [])

/-- Modelled from the spec: `validate(object, constraints)` evaluates every
constrained attribute of the object and returns the mapping from attribute
name to its violated rules; `none` (success) is the empty mapping. -/
def validateObject (getAttr : String → Option Value)
    (constraints : List (String × AttrConstraint)) :
    List (String × List Violation) :=
  constraints.filterMap (fun p =>
    let vs := checkAttrConstraint p.2 (getAttr p.1) getAttr
    if vs = [] then none else some (p.1, vs))

/-- Translation of `commonFieldConstraints` (src/models/EntryType.js). -/
def commonFieldConstraints : List (String × AttrConstraint) :=
  [("fieldType", { presence := some false }),
   ("name", { presence := some false,
              length := some { minimum := some 4, maximum := some 64 } }),
   ("label", { presence := some false,
               length := some { minimum := some 4, maximum := some 64 } }),
   ("description", { presence := some true }),
   ("required", { boolean := true, presence := some false }),
   ("disabled", { boolean := true, presence := some false })]

/-- Translation of `textFieldConstraints` (src/models/EntryType.js). -/
def textFieldConstraints : List (String × AttrConstraint) :=
  [("minLength", { presence := some false,
                   numericality := some { greaterThanOrEqualTo := some 0,
                                          lessThanOrEqualTo := some 999,
                                          onlyInteger := true },
                   lessThanAttribute := some "maxLength" }),
   ("maxLength", { presence := some false,
                   numericality := some { greaterThanOrEqualTo := some 1,
                                          lessThanOrEqualTo := some 1000,
                                          onlyInteger := true } }),
   ("format", { presence := some false,
                inclusion := some ["plaintext", "uri", "email"] })]

/-- Translation of `longTextFieldConstraints` (src/models/EntryType.js). -/
def longTextFieldConstraints : List (String × AttrConstraint) :=
  [("minLength", { presence := some false,
                   numericality := some { greaterThanOrEqualTo := some 0,
                                          lessThanOrEqualTo := some 29999,
                                          onlyInteger := true },
                   lessThanAttribute := some "maxLength" }),
   ("maxLength", { presence := some false,
                   numericality := some { greaterThanOrEqualTo := some 1,
                                          lessThanOrEqualTo := some 50000,
                                          onlyInteger := true } }),
   ("format", { presence := some false,
                inclusion := some ["plaintext", "markdown"] })]

/-- Translation of `booleanFieldConstraints` (src/models/EntryType.js). -/
def booleanFieldConstraints : List (String × AttrConstraint) :=
  [("labelTrue", { presence := some false,
                   length := some { minimum := some 1, maximum := some 32 } }),
   ("labelFalse", { presence := some false,
                    length := some { minimum := some 1, maximum := some 32 } })]

/-- Translation of `numberFieldConstraints` (src/models/EntryType.js): note
that, unlike the length-bounded kinds, `minValue` and `maxValue` carry no
presence rule. -/
def numberFieldConstraints : List (String × AttrConstraint) :=
  [("minValue", { numericality := some {},
                  lessThanAttribute := some "maxValue" }),
   ("maxValue", { numericality := some {} }),
   ("format", { presence := some false,
                inclusion := some ["number", "integer"] })]

/-- Translation of `dateFieldConstraints` (src/models/EntryType.js). -/
def dateFieldConstraints : List (String × AttrConstraint) :=
  [("format", { presence := some false,
                inclusion := some ["datetime", "date"] })]

/-- Translation of `choiceFieldConstraints` (src/models/EntryType.js). -/
def choiceFieldConstraints : List (String × AttrConstraint) :=
  [("choices", { presence := some false,
                 arrayLength := some { minimum := some 2, maximum := some 128 },
                 uniqueArray := true }),
   ("format", { presence := some false,
                inclusion := some ["single", "multiple"] })]

/-- Translation of `colorFieldConstraints` (src/models/EntryType.js). -/
def colorFieldConstraints : List (String × AttrConstraint) :=
  [("format", { presence := some false,
                inclusion := some ["rgb", "rgba"] })]

/-- Translation of `mediaFieldConstraints` (src/models/EntryType.js). -/
def mediaFieldConstraints : List (String × AttrConstraint) :=
  [("minLength", { presence := some false,
                   numericality := some { greaterThanOrEqualTo := some 0,
                                          lessThanOrEqualTo := some 999,
                                          onlyInteger := true },
                   lessThanAttribute := some "maxLength" }),
   ("maxLength", { presence := some false,
                   numericality := some { greaterThanOrEqualTo := some 1,
                                          lessThanOrEqualTo := some 1000,
                                          onlyInteger := true } })]

/-- Translation of `linkFieldConstraints` (src/models/EntryType.js). -/
def linkFieldConstraints : List (String × AttrConstraint) :=
  [("minLength", { presence := some false,
                   numericality := some { greaterThanOrEqualTo := some 0,
                                          lessThanOrEqualTo := some 999,
                                          onlyInteger := true },
                   lessThanAttribute := some "maxLength" }),
   ("maxLength", { presence := some false,
                   numericality := some { greaterThanOrEqualTo := some 1,
                                          lessThanOrEqualTo := some 1000,
                                          onlyInteger := true } })]

/-- Translation of `listFieldConstraints` (src/models/EntryType.js). -/
def listFieldConstraints : List (String × AttrConstraint) :=
  [("minLength", { presence := some false,
                   numericality := some { greaterThanOrEqualTo := some 0,
                                          lessThanOrEqualTo := some 999,
                                          onlyInteger := true },
                   lessThanAttribute := some "maxLength" }),
   ("maxLength", { presence := some false,
                   numericality := some { greaterThanOrEqualTo := some 1,
                                          lessThanOrEqualTo := some 1000,
                                          onlyInteger := true } })]

/-- Translation of `fieldTypeConstraints` (src/models/EntryType.js): the
catalog mapping each kind tag to `Object.assign({}, commonFieldConstraints,
<kind>FieldConstraints)` — the common attribute constraints followed by the
kind-specific ones (the key sets are disjoint). -/
def fieldTypeConstraintsList : List (String × List (String × AttrConstraint)) :=
  [("TEXT", commonFieldConstraints ++ textFieldConstraints),
   ("LONGTEXT", commonFieldConstraints ++ longTextFieldConstraints),
   ("BOOLEAN", commonFieldConstraints ++ booleanFieldConstraints),
   ("NUMBER", commonFieldConstraints ++ numberFieldConstraints),
   ("DATE", commonFieldConstraints ++ dateFieldConstraints),
   ("CHOICE", commonFieldConstraints ++ choiceFieldConstraints),
   ("COLOR", commonFieldConstraints ++ colorFieldConstraints),
   ("MEDIA", commonFieldConstraints ++ mediaFieldConstraints),
   ("LINK", commonFieldConstraints ++ linkFieldConstraints),
   ("LIST", commonFieldConstraints ++ listFieldConstraints)]

/-- Translation of `const fieldTypes = Object.keys(fieldTypeConstraints)`. -/
def fieldTypesList : List String :=
  fieldTypeConstraintsList.map Prod.fst

/-- The constraint set of the catalog for a kind tag (empty for an unknown
tag, which `$beforeValidate` rules out before use). -/
def constraintsFor (kind : String) : List (String × AttrConstraint) :=
  ((fieldTypeConstraintsList.find? (fun p => p.1 == kind)).map Prod.snd).getD []

/-- The catalog's constraint object for one attribute of one kind. -/
def attrConstraintFor (kind attr : String) : AttrConstraint :=
  (((constraintsFor kind).find? (fun p => p.1 == attr)).map Prod.snd).getD {}

/-- Definition-time validation of a single field against its kind's
constraint set — `validate(field, fieldTypeConstraints[field.fieldType])`. -/
def validateFieldDef (f : FieldDef) : List (String × List Violation) :=
  validateObject f.getAttr (constraintsFor f.fieldType)

/-- The accumulating per-field pass of `$beforeValidate`: each field with a
non-empty error set contributes an entry under its name. -/
def accumulateFieldErrors (fields : List FieldDef) :
    List (String × List (String × List Violation)) :=
  fields.filterMap (fun f =>
    let errs := validateFieldDef f
    if errs = [] then none else some (fieldKey f, errs))

/-- The top-level entry-type object handed to `$beforeValidate`. -/
structure EntryTypeJson where
  name : Option String := none
  description : Option String := none
  metadata : Option String := none
  projectId : Option ℚ := none
  userId : Option ℚ := none
  fields : Option (List FieldDef) := none
deriving Repr

/-- Attribute access on the top-level object.  The `fields` attribute is
only ever inspected for presence (its constraint is
`presence: {allowEmpty: true}`), so element contents are not inspected
here; only the array's presence and length are preserved. -/
def EntryTypeJson.getAttr (j : EntryTypeJson) : String → Option Value
  | "name" => j.name.map .str
  | "description" => j.description.map .str
  | "metadata" => j.metadata.map .str
  | "projectId" => j.projectId.map .num
  | "userId" => j.userId.map .num
  | "fields" => j.fields.map (fun fs => .arr (fs.map (fun _ => .bool true)))
  | _ => none

/-- Translation of `entryTypeConstraints` (src/models/EntryType.js): the
step-1 top-level constraint set.  Note the name rule is
`length: {minimum: 4}` with no maximum. -/
def entryTypeConstraints : List (String × AttrConstraint) :=
  [("name", { presence := some false,
              length := some { minimum := some 4 } }),
   ("description", { length := some { minimum := some 0 } }),
   ("metadata", { length := some { minimum := some 0 } }),
   ("projectId", { presence := some false,
                   numericality := some { onlyInteger := true } }),
   ("userId", { presence := some false,
                numericality := some { onlyInteger := true } }),
   ("fields", { presence := some true })]

/-- Step 1 of `$beforeValidate`: `validate(json, entryTypeConstraints)`. -/
def topLevelErrors (json : EntryTypeJson) : List (String × List Violation) :=
  validateObject json.getAttr entryTypeConstraints

/-- The failure modes of `$beforeValidate`, in the order the source can
raise them: a top-level `ValidationError` carrying per-attribute errors, the
duplicate-name `ValidationError('Field names must be unique')`, the fatal
`ValidationError('<tag>' is not a valid field type')` carrying the offending
tag, and the accumulated per-field error mapping. -/
inductive DefError where
  | topLevel (errors : List (String × List Violation))
  | fieldNamesNotUnique
  | unknownFieldType (tag : String)
  | fieldErrors (errors : List (String × List (String × List Violation)))
deriving DecidableEq, Repr

/-- Translation of `EntryType.$beforeValidate` (src/models/EntryType.js).
The source's `forEach` throws on the first field whose tag fails the
`inclusion: fieldTypes` check and otherwise accumulates that field's
errors; since per-field validation is pure, that loop is modelled as a
first-unknown-tag lookup followed by the accumulating pass, which is
observationally the same. -/
def beforeValidate (json : EntryTypeJson) : Except DefError Unit :=
  let errs := topLevelErrors json
  if errs ≠ [] then .error (.topLevel errs)
  else
    let fields := (json.fields).getD []
    let fieldNames := fields.map FieldDef.name
    if fieldNames.length ≠ fieldNames.dedup.length then .error .fieldNamesNotUnique
    else
      match fields.find? (fun f => !(fieldTypesList.contains f.fieldType)) with
      | some f => .error (.unknownFieldType f.fieldType)
      | none =>
        let fieldErrors := accumulateFieldErrors fields
        if fieldErrors ≠ [] then .error (.fieldErrors fieldErrors) else .ok ()

/-- A property sub-schema inside a field shape of the schema document
(`jsonSchema`): its `type` plus the optional members actually used there. -/
structure PropSchema where
  type : String
  pattern : Option String := none
  minLength : Option Int := none
  maxLength : Option Int := none
  enum : Option (List String) := none
  default : Option Value := none
  items : Option String := none
deriving DecidableEq, Repr

/-- One member of the `oneOf` union in the schema document's
`fields.items`: its declared properties (in `Object.assign` key order),
the `additionalProperties` flag and the `required` list. -/
structure FieldShape where
  properties : List (String × PropSchema)
  additionalProperties : Bool
  required : List String
deriving DecidableEq, Repr

/-- Translation of `commonFieldAttributes` (src/models/EntryType.js,
`jsonSchema`). -/
def commonFieldAttributes : List (String × PropSchema) :=
  [("name", { type := "string", minLength := some 4, maxLength := some 64 }),
   ("label", { type := "string", minLength := some 4, maxLength := some 64 }),
   ("description", { type := "string", default := some (.str ""), maxLength := some 128 }),
   ("required", { type := "boolean", default := some (.bool false) }),
   ("disabled", { type := "boolean", default := some (.bool false) })]

/-- TEXT member of the `oneOf` union (src/models/EntryType.js, `jsonSchema`). -/
def textShape : FieldShape where
  properties :=
    [("fieldType", { type := "string", pattern := some "^TEXT$" }),
     ("minLength", { type := "integer", minLength := some 0, maxLength := some 999 }),
     ("maxLength", { type := "integer", minLength := some 1, maxLength := some 1000 }),
     ("format", { type := "string", enum := some ["plaintext", "uri", "email"] })]
    ++ commonFieldAttributes
  additionalProperties := false
  required := ["fieldType", "name", "label", "description", "required", "disabled",
               "minLength", "maxLength", "format"]

/-- LONGTEXT member of the `oneOf` union. -/
def longTextShape : FieldShape where
  properties :=
    [("fieldType", { type := "string", pattern := some "^LONGTEXT$" }),
     ("minLength", { type := "integer", minLength := some 0, maxLength := some 29999 }),
     ("maxLength", { type := "integer", minLength := some 1, maxLength := some 50000 }),
     ("format", { type := "string", enum := some ["plaintext", "markdown"] })]
    ++ commonFieldAttributes
  additionalProperties := false
  required := ["fieldType", "name", "label", "description", "required", "disabled",
               "minLength", "maxLength", "format"]

/-- BOOLEAN member of the `oneOf` union. -/
def booleanShape : FieldShape where
  properties :=
    [("fieldType", { type := "string", pattern := some "^BOOLEAN$" }),
     ("labelTrue", { type := "string", minLength := some 1, maxLength := some 32 }),
     ("labelFalse", { type := "string", minLength := some 1, maxLength := some 32 })]
    ++ commonFieldAttributes
  additionalProperties := false
  required := ["fieldType", "name", "label", "description", "required", "disabled",
               "labelTrue", "labelFalse"]

/-- NUMBER member of the `oneOf` union: note `minValue` and `maxValue` are
listed in `required`. -/
def numberShape : FieldShape where
  properties :=
    [("fieldType", { type := "string", pattern := some "^NUMBER$" }),
     ("minValue", { type := "number" }),
     ("maxValue", { type := "number" }),
     ("format", { type := "string", enum := some ["number", "integer"] })]
    ++ commonFieldAttributes
  additionalProperties := false
  required := ["fieldType", "name", "label", "description", "required", "disabled",
               "minValue", "maxValue", "format"]

/-- DATE member of the `oneOf` union. -/
def dateShape : FieldShape where
  properties :=
    [("fieldType", { type := "string", pattern := some "^DATE$" }),
     ("format", { type := "string", enum := some ["datetime", "date"] })]
    ++ commonFieldAttributes
  additionalProperties := false
  required := ["fieldType", "name", "label", "description", "required", "disabled",
               "format"]

/-- CHOICE member of the `oneOf` union. -/
def choiceShape : FieldShape where
  properties :=
    [("fieldType", { type := "string", pattern := some "^CHOICE$" }),
     ("choices", { type := "array", items := some "string",
                   minLength := some 2, maxLength := some 128 }),
     ("format", { type := "string", enum := some ["single", "multiple"] })]
    ++ commonFieldAttributes
  additionalProperties := false
  required := ["fieldType", "name", "label", "description", "required", "disabled",
               "choices", "format"]

/-- COLOR member of the `oneOf` union. -/
def colorShape : FieldShape where
  properties :=
    [("fieldType", { type := "string", pattern := some "^COLOR$" }),
     ("format", { type := "string", enum := some ["rgb", "rgba"] })]
    ++ commonFieldAttributes
  additionalProperties := false
  required := ["fieldType", "name", "label", "description", "required", "disabled",
               "format"]

/-- MEDIA member of the `oneOf` union. -/
def mediaShape : FieldShape where
  properties :=
    [("fieldType", { type := "string", pattern := some "^MEDIA$" }),
     ("minLength", { type := "integer", minLength := some 0, maxLength := some 999 }),
     ("maxLength", { type := "integer", minLength := some 1, maxLength := some 1000 })]
    ++ commonFieldAttributes
  additionalProperties := false
  required := ["fieldType", "name", "label", "description", "required", "disabled",
               "minLength", "maxLength"]

/-- LINK member of the `oneOf` union. -/
def linkShape : FieldShape where
  properties :=
    [("fieldType", { type := "string", pattern := some "^LINK$" }),
     ("minLength", { type := "integer", minLength := some 0, maxLength := some 999 }),
     ("maxLength", { type := "integer", minLength := some 1, maxLength := some 1000 })]
    ++ commonFieldAttributes
  additionalProperties := false
  required := ["fieldType", "name", "label", "description", "required", "disabled",
               "minLength", "maxLength"]

/-- LIST member of the `oneOf` union. -/
def listShape : FieldShape where
  properties :=
    [("fieldType", { type := "string", pattern := some "^LIST$" }),
     ("minLength", { type := "integer", minLength := some 0, maxLength := some 999 }),
     ("maxLength", { type := "integer", minLength := some 1, maxLength := some 1000 })]
    ++ commonFieldAttributes
  additionalProperties := false
  required := ["fieldType", "name", "label", "description", "required", "disabled",
               "minLength", "maxLength"]

/-- Translation of the `oneOf` array under `fields.items` in the schema
document (src/models/EntryType.js, `jsonSchema`).  The document is a static
constant of the model class — a closed term here — so it is the same for
every definition and every call. -/
def entryTypeFieldsOneOf : List FieldShape :=
  [textShape, longTextShape, booleanShape, numberShape, dateShape,
   choiceShape, colorShape, mediaShape, linkShape, listShape]

/-- The `pattern` member of a shape's `fieldType` property. -/
def shapeDiscriminator (s : FieldShape) : Option String :=
  ((s.properties.find? (fun p => p.1 == "fieldType")).map Prod.snd).bind PropSchema.pattern

/-- A representative non-disabled, required TEXT field with format
`plaintext` and length bounds [1, 10]. -/
def textPlainField : FieldDef :=
  { fieldType := "TEXT", name := some "title", label := some "Title",
    description := some "", required := some true, disabled := some false,
    minLength := some 1, maxLength := some 10, format := some "plaintext" }

/-- The same field with format `uri`. -/
def textUriField : FieldDef := { textPlainField with format := some "uri" }

/-- The same field with format `email`. -/
def textEmailField : FieldDef := { textPlainField with format := some "email" }

/-- The same field as a LONGTEXT (format `plaintext`). -/
def longTextField : FieldDef := { textPlainField with fieldType := "LONGTEXT" }

/-- C1: the value ruleset compiled for a TEXT field contains no length rule,
whatever the format: for the plaintext variant the whole ruleset is just the
presence rule, for `uri`/`email` it is presence plus the parser rule, while
the identically-bounded LONGTEXT field does receive the
`length: {minimum, maximum}` rule.  The `else if (fieldType === 'TEXT' ||
fieldType === 'LONGTEXT')` branch of `validateEntryFields` is unreachable
for TEXT fields, so the claim's string-length rule is never attached to a
TEXT field. -/
theorem C1_text_length_rule_missing :
    buildFieldConstraints textPlainField 7 = { presence := true } ∧
    buildFieldConstraints textUriField 7 = { presence := true, url := true } ∧
    buildFieldConstraints textEmailField 7 = { presence := true, email := true } ∧
    buildFieldConstraints longTextField 7 =
      { presence := true, length := some { minimum := some 1, maximum := some 10 } } := by
  decide

/-- A definition whose top-level attributes are all valid except that its
name has length 1. -/
def shortNameJson : EntryTypeJson :=
  { name := some "a", description := some "", metadata := some "",
    projectId := some 1, userId := some 1, fields := some [] }

/-- C2 counterexample: a definition whose name is a non-empty string of one
character (at most 64 characters) and whose other top-level attributes are
valid is rejected by step 1 with a top-level error on `name`: the step-1
constraint set demands `length: {minimum: 4}` on the name. -/
theorem C2_short_name_rejected :
    beforeValidate shortNameJson = .error (.topLevel [("name", [.tooShort])]) := by
  rfl

/-- C2 (amended): step 1 accepts any definition name of length 4 to 64 —
it contributes no entry under `name` to the step-1 top-level error map,
whatever the other attributes hold. -/
theorem C2_name_minimum_four (json : EntryTypeJson) (s : String)
    (hn : json.name = some s) (hlen : 4 ≤ s.length) (hmax : s.length ≤ 64) :
    "name" ∉ (topLevelErrors json).map Prod.fst := by
  intro hmem
  rcases List.mem_map.1 hmem with ⟨p, hp, hfst⟩
  rcases List.mem_filterMap.1 hp with ⟨q, hq, hpq⟩
  have hsne : (s == "") = false := by
    cases hs : s == ""
    · rfl
    · exact absurd (eq_of_beq hs ▸ hlen) (by decide)
  have hlen4 : ¬ ((s.length : Int) < 4) := by
    omega
  simp only [entryTypeConstraints] at hq
  fin_cases hq
  · simp [checkAttrConstraint, checkPresence, checkLengthRule, lengthOf,
      isEmptyValue, EntryTypeJson.getAttr, Option.map, hn, hsne, hlen4] at hpq
  all_goals
    dsimp only at hpq
  all_goals
    split at hpq
  all_goals
    first
    | exact Option.noConfusion hpq
    | (injection hpq with h
       subst h
       simp at hfst)

/-- A definition with a four-character name. -/
def fourCharNameJson : EntryTypeJson :=
  { name := some "Blog", description := some "", metadata := some "",
    projectId := some 1, userId := some 1, fields := some [] }

/-- Witness for C2 (amended) at a concrete four-character name. -/
theorem C2_name_minimum_four_witness :
    fourCharNameJson.name = some "Blog" ∧ 4 ≤ "Blog".length ∧ "Blog".length ≤ 64 ∧
    "name" ∉ (topLevelErrors fourCharNameJson).map Prod.fst :=
  ⟨rfl, by decide, by decide,
   C2_name_minimum_four fourCharNameJson "Blog" rfl (by decide) (by decide)⟩

/-- C3: once step 1 has passed, any definition whose fields carry a repeated
name fails with `ValidationError('Field names must be unique')`, whatever
the fields' kinds: the duplicate-name check precedes both the unknown-tag
check and the accumulating per-field pass in `$beforeValidate`. -/
theorem C3_duplicate_field_names (json : EntryTypeJson)
    (h1 : topLevelErrors json = [])
    (hdup : ((json.fields.getD []).map FieldDef.name).length ≠
      ((json.fields.getD []).map FieldDef.name).dedup.length) :
    beforeValidate json = .error .fieldNamesNotUnique := by
  unfold beforeValidate
  rw [h1]
  simp only [ne_eq, not_true_eq_false, if_false]
  exact if_pos hdup

/-- A top-level-valid definition having two fields that share the name
`samename`, the first of an unknown kind, the second a TEXT field whose
per-field attributes would also fail — none of which is reached. -/
def dupNamesJson : EntryTypeJson :=
  { name := some "Blog Post", description := some "", metadata := some "",
    projectId := some 1, userId := some 1,
    fields := some [{ fieldType := "WIBBLE", name := some "samename" },
                    { fieldType := "TEXT", name := some "samename" }] }

/-- Witness for C3: the duplicate-name error fires even though the first
duplicate field has an unknown kind tag. -/
theorem C3_duplicate_field_names_witness :
    topLevelErrors dupNamesJson = [] ∧
    ((dupNamesJson.fields.getD []).map FieldDef.name).length ≠
      ((dupNamesJson.fields.getD []).map FieldDef.name).dedup.length ∧
    beforeValidate dupNamesJson = .error .fieldNamesNotUnique :=
  ⟨by decide, by decide, C3_duplicate_field_names dupNamesJson (by decide) (by decide)⟩

/-- C4: once step 1 and the duplicate-name check have passed, a definition
whose fields include one with an unknown kind tag (the first such field
being `g`) makes `$beforeValidate` throw the fatal
`'<tag>' is not a valid field type` error naming `g`'s tag — an
`unknownFieldType` error, not an accumulated `fieldErrors` mapping. -/
theorem C4_unknown_field_type (json : EntryTypeJson) (g : FieldDef)
    (h1 : topLevelErrors json = [])
    (h2 : ((json.fields.getD []).map FieldDef.name).length =
      ((json.fields.getD []).map FieldDef.name).dedup.length)
    (hfind : (json.fields.getD []).find?
      (fun f => !(fieldTypesList.contains f.fieldType)) = some g) :
    beforeValidate json = .error (.unknownFieldType g.fieldType) := by
  unfold beforeValidate
  rw [h1]
  simp only [ne_eq, not_true_eq_false, if_false, h2, not_true_eq_false, ite_false]
  rw [hfind]

/-- A top-level-valid definition with one field of the unknown kind
`WIBBLE`. -/
def unknownKindJson : EntryTypeJson :=
  { name := some "Blog Post", description := some "", metadata := some "",
    projectId := some 1, userId := some 1,
    fields := some [{ fieldType := "WIBBLE", name := some "something" }] }

/-- Witness for C4 at the concrete unknown tag `WIBBLE`. -/
theorem C4_unknown_field_type_witness :
    topLevelErrors unknownKindJson = [] ∧
    ((unknownKindJson.fields.getD []).map FieldDef.name).length =
      ((unknownKindJson.fields.getD []).map FieldDef.name).dedup.length ∧
    (unknownKindJson.fields.getD []).find?
      (fun f => !(fieldTypesList.contains f.fieldType)) =
      some { fieldType := "WIBBLE", name := some "something" } ∧
    beforeValidate unknownKindJson = .error (.unknownFieldType "WIBBLE") :=
  ⟨by decide, by decide, by decide,
   C4_unknown_field_type unknownKindJson
     { fieldType := "WIBBLE", name := some "something" }
     (by decide) (by decide) (by decide)⟩

/-- The required BOOLEAN field `published` of the spec's worked example. -/
def publishedField : FieldDef :=
  { fieldType := "BOOLEAN", name := some "published", label := some "Published",
    description := some "", required := some true, disabled := some false,
    labelTrue := some "Yes", labelFalse := some "No" }

/-- The optional NUMBER field `rating` (minValue 0, maxValue 5, format
integer) of the spec's worked example. -/
def ratingField : FieldDef :=
  { fieldType := "NUMBER", name := some "rating", label := some "Rating",
    description := some "", required := some false, disabled := some false,
    minValue := some 0, maxValue := some 5, format := some "integer" }

/-- The two-field definition of the spec's worked example. -/
def pubRatingFields : List FieldDef := [publishedField, ratingField]

/-- C7: on the worked example, `{published: true, rating: 3}` validates
cleanly; `{rating: 3}` fails with a presence violation (`blank`) on
`published`; `{published: true, rating: 5.5}` (5.5 = `mkRat 11 2`) fails on
`rating` with the integer violation (`notInteger`, alongside the range
violation 5.5 > 5). -/
theorem C7_boolean_number_example :
    validateEntryFieldsModel nullCheckers pubRatingFields 1
      [("published", .bool true), ("rating", .num 3)] = [] ∧
    validateEntryFieldsModel nullCheckers pubRatingFields 1
      [("rating", .num 3)] = [("published", [.blank])] ∧
    validateEntryFieldsModel nullCheckers pubRatingFields 1
      [("published", .bool true), ("rating", .num (mkRat 11 2))] =
      [("rating", [.tooBig, .notInteger])] ∧
    Violation.notInteger ∈ violationsAt
      (validateEntryFieldsModel nullCheckers pubRatingFields 1
        [("published", .bool true), ("rating", .num (mkRat 11 2))]) "rating" := by
  refine ⟨by decide, by decide, by decide, by decide⟩

/-- C9: the `oneOf` union under `fields.items` of the schema document has
exactly ten members; each is discriminated by an exact-match pattern
`^<KIND>$` on `fieldType`, in catalog order; each sets
`additionalProperties: false`; each declares exactly the common attributes
plus its kind-specific attributes; and each `required` list names precisely
the declared properties (as a permutation of the property keys).  The
document itself is a closed constant (`entryTypeFieldsOneOf`), hence the
same for every definition and every call. -/
theorem C9_schema_oneOf_shapes :
    entryTypeFieldsOneOf.length = 10 ∧
    entryTypeFieldsOneOf.map shapeDiscriminator =
      fieldTypesList.map (fun k => some ("^" ++ k ++ "$")) ∧
    entryTypeFieldsOneOf.all (fun s => !s.additionalProperties) = true ∧
    entryTypeFieldsOneOf.map (fun s => s.properties.map Prod.fst) =
      [["fieldType", "minLength", "maxLength", "format",
        "name", "label", "description", "required", "disabled"],
       ["fieldType", "minLength", "maxLength", "format",
        "name", "label", "description", "required", "disabled"],
       ["fieldType", "labelTrue", "labelFalse",
        "name", "label", "description", "required", "disabled"],
       ["fieldType", "minValue", "maxValue", "format",
        "name", "label", "description", "required", "disabled"],
       ["fieldType", "format",
        "name", "label", "description", "required", "disabled"],
       ["fieldType", "choices", "format",
        "name", "label", "description", "required", "disabled"],
       ["fieldType", "format",
        "name", "label", "description", "required", "disabled"],
       ["fieldType", "minLength", "maxLength",
        "name", "label", "description", "required", "disabled"],
       ["fieldType", "minLength", "maxLength",
        "name", "label", "description", "required", "disabled"],
       ["fieldType", "minLength", "maxLength",
        "name", "label", "description", "required", "disabled"]] ∧
    entryTypeFieldsOneOf.all
      (fun s => (s.properties.map Prod.fst).isPerm s.required) = true := by
  refine ⟨rfl, by decide, by decide, by decide, by decide⟩

/-- Lookup of a field's accumulated attribute errors in the per-field error
mapping. -/
def fieldErrorsAt (m : List (String × List (String × List Violation))) (k : String) :
    List (String × List Violation) :=
  ((m.find? (fun p => p.1 == k)).map Prod.snd).getD []

/-- On an association list with pairwise-distinct keys, `find?` retrieves
exactly the stored pair of a present key. -/
theorem find_assoc_of_nodup {β : Type} {m : List (String × β)} {k : String} {v : β}
    (hn : (m.map Prod.fst).Nodup) (hm : (k, v) ∈ m) :
    m.find? (fun p => p.1 == k) = some (k, v) := by
  induction m with
  | nil => cases hm
  | cons a t ih =>
    rw [List.map_cons, List.nodup_cons] at hn
    rcases List.mem_cons.1 hm with h | h
    · rw [← h]
      simp [List.find?_cons]
    · have hak : (a.1 == k) = false := by
        refine beq_eq_false_iff_ne.2 ?_
        intro he
        exact hn.1 (he ▸ List.mem_map_of_mem Prod.fst h)
      rw [List.find?_cons, hak]
      exact ih hn.2 h

/-- The keys of a key-preserving `filterMap` form a sublist of the mapped
keys of the source list. -/
theorem filterMap_keyed_sublist {α β : Type} (key : α → String)
    (F : α → Option (String × β)) (hF : ∀ a r, F a = some r → r.1 = key a)
    (l : List α) : ((l.filterMap F).map Prod.fst).Sublist (l.map key) := by
  induction l with
  | nil => simp
  | cons a t ih =>
    rw [List.filterMap_cons, List.map_cons]
    cases hFa : F a with
    | none => exact List.Sublist.cons _ ih
    | some r =>
      rw [List.map_cons, hF a r hFa]
      exact List.Sublist.cons₂ _ ih

/-- When an attribute constraint carries `lessThanAttribute`, the target
attribute holds `b`, and the attribute's own numeric value `a` is not
strictly below it, the check reports `notLessThan` (whatever its other
component rules report). -/
theorem notLessThan_mem_checkAttr (c : AttrConstraint)
    (getOther : String → Option Value) (a b : ℚ) (other : String)
    (h1 : c.lessThanAttribute = some other)
    (h2 : getOther other = some (.num b)) (h3 : ¬ a < b) :
    Violation.notLessThan ∈ checkAttrConstraint c (some (.num a)) getOther := by
  simp [checkAttrConstraint, h1, h2, h3]

/-- C5: a disabled field contributes no entry to the per-record constraint
map compiled by `validateEntryFields` (given the unique field names of a
stored definition), and consequently no violation under its name can appear
in the validation result of any record — whatever the field's `required`
flag and whatever value the record does or does not hold for it. -/
theorem C5_disabled_fields_skipped (fields : List FieldDef) (projectId : Int)
    (ext : ExternalCheckers) (record : List (String × Value)) (f : FieldDef)
    (hmem : f ∈ fields) (hdis : f.disabled = some true)
    (hnodup : (fields.map fieldKey).Nodup) :
    fieldKey f ∉ (valueConstraintMap fields projectId).map Prod.fst ∧
    fieldKey f ∉ (validateEntryFieldsModel ext fields projectId record).map Prod.fst := by
  have h1 : fieldKey f ∉ (valueConstraintMap fields projectId).map Prod.fst := by
    intro hk
    rw [valueConstraintMap, List.map_map] at hk
    rcases List.mem_map.1 hk with ⟨g, hg, hgkey⟩
    rcases List.mem_filter.1 hg with ⟨hgmem, hgcond⟩
    have hgf : g = f :=
      List.inj_on_of_nodup_map hnodup hgmem hmem hgkey
    rw [hgf, hdis] at hgcond
    simp at hgcond
  refine ⟨h1, fun hk => ?_⟩
  rcases List.mem_map.1 hk with ⟨p, hp, hfst⟩
  rcases List.mem_filterMap.1 hp with ⟨q, hq, hpq⟩
  have hqp : q.1 = p.1 := by
    dsimp only at hpq
    split at hpq
    · exact Option.noConfusion hpq
    · injection hpq with h
      rw [← h]
  exact h1 (hfst ▸ hqp ▸ List.mem_map_of_mem Prod.fst hq)

/-- A required TEXT field that is disabled. -/
def disabledRequiredField : FieldDef :=
  { fieldType := "TEXT", name := some "title", label := some "Title",
    description := some "", required := some true, disabled := some true,
    minLength := some 1, maxLength := some 10, format := some "plaintext" }

/-- Witness for C5: a required disabled TEXT field with no submitted value
produces no constraint-map entry and no violation. -/
theorem C5_disabled_fields_skipped_witness :
    disabledRequiredField ∈ [disabledRequiredField] ∧
    disabledRequiredField.disabled = some true ∧
    (([disabledRequiredField] : List FieldDef).map fieldKey).Nodup ∧
    fieldKey disabledRequiredField ∉
      (valueConstraintMap [disabledRequiredField] 1).map Prod.fst ∧
    fieldKey disabledRequiredField ∉
      (validateEntryFieldsModel nullCheckers [disabledRequiredField] 1 []).map Prod.fst := by
  refine ⟨by decide, by decide, by decide, ?_⟩
  exact C5_disabled_fields_skipped [disabledRequiredField] 1 nullCheckers []
    disabledRequiredField (by decide) (by decide) (by decide)

/-- Core of C8: when a field's definition-time constraint set holds an
attribute rule carrying `lessThanAttribute` whose ordering fails on the
field, the accumulating pass records an error for that field (under its
name) that contains `notLessThan` for that attribute. -/
theorem ordering_violation_reported (fields : List FieldDef) (f : FieldDef)
    (low high : String) (cLow : AttrConstraint) (a b : ℚ)
    (hmem : f ∈ fields) (hnodup : (fields.map fieldKey).Nodup)
    (hentry : (low, cLow) ∈ constraintsFor f.fieldType)
    (hkeys : ((constraintsFor f.fieldType).map Prod.fst).Nodup)
    (hlt : cLow.lessThanAttribute = some high)
    (hlo : f.getAttr low = some (.num a))
    (hhi : f.getAttr high = some (.num b))
    (hord : ¬ a < b) :
    Violation.notLessThan ∈
      violationsAt (fieldErrorsAt (accumulateFieldErrors fields) (fieldKey f)) low := by
  have hvmem : Violation.notLessThan ∈
      checkAttrConstraint cLow (f.getAttr low) f.getAttr := by
    rw [hlo]
    exact notLessThan_mem_checkAttr cLow f.getAttr a b high hlt hhi hord
  have hvs_ne : checkAttrConstraint cLow (f.getAttr low) f.getAttr ≠ [] :=
    List.ne_nil_of_mem hvmem
  have hlowmem : (low, checkAttrConstraint cLow (f.getAttr low) f.getAttr) ∈
      validateFieldDef f := by
    rw [validateFieldDef, validateObject]
    exact List.mem_filterMap.2 ⟨(low, cLow), hentry, by
      dsimp only
      rw [if_neg hvs_ne]⟩
  have herrs_ne : validateFieldDef f ≠ [] := List.ne_nil_of_mem hlowmem
  have haccmem : (fieldKey f, validateFieldDef f) ∈ accumulateFieldErrors fields := by
    rw [accumulateFieldErrors]
    exact List.mem_filterMap.2 ⟨f, hmem, by
      dsimp only
      rw [if_neg herrs_ne]⟩
  have haccF : ∀ (g : FieldDef) (r : String × List (String × List Violation)),
      (if validateFieldDef g = [] then none else some (fieldKey g, validateFieldDef g))
        = some r → r.1 = fieldKey g := by
    intro g r hr
    split at hr
    · exact Option.noConfusion hr
    · injection hr with h
      rw [← h]
  have hacckeys : ((accumulateFieldErrors fields).map Prod.fst).Nodup :=
    List.Nodup.sublist (filterMap_keyed_sublist fieldKey _ haccF fields) hnodup
  have hfindacc : (accumulateFieldErrors fields).find? (fun p => p.1 == fieldKey f) =
      some (fieldKey f, validateFieldDef f) :=
    find_assoc_of_nodup hacckeys haccmem
  have hfielderrs : fieldErrorsAt (accumulateFieldErrors fields) (fieldKey f) =
      validateFieldDef f := by
    rw [fieldErrorsAt, hfindacc]
    rfl
  rw [hfielderrs]
  have hvF : ∀ (p : String × AttrConstraint) (r : String × List Violation),
      (if checkAttrConstraint p.2 (f.getAttr p.1) f.getAttr = [] then none
       else some (p.1, checkAttrConstraint p.2 (f.getAttr p.1) f.getAttr))
        = some r → r.1 = p.1 := by
    intro p r hr
    split at hr
    · exact Option.noConfusion hr
    · injection hr with h
      rw [← h]
  have hvkeys : ((validateFieldDef f).map Prod.fst).Nodup := by
    rw [validateFieldDef, validateObject]
    exact List.Nodup.sublist
      (filterMap_keyed_sublist Prod.fst _ hvF (constraintsFor f.fieldType)) hkeys
  have hfindlow : (validateFieldDef f).find? (fun p => p.1 == low) =
      some (low, checkAttrConstraint cLow (f.getAttr low) f.getAttr) :=
    find_assoc_of_nodup hvkeys hlowmem
  rw [violationsAt, hfindlow]
  exact hvmem

/-- The six (kind, lower attribute, upper attribute) triples carrying the
`lessThanAttribute` ordering rule in the catalog. -/
def orderedBoundsKinds : List (String × String × String) :=
  [("TEXT", "minLength", "maxLength"),
   ("LONGTEXT", "minLength", "maxLength"),
   ("NUMBER", "minValue", "maxValue"),
   ("MEDIA", "minLength", "maxLength"),
   ("LINK", "minLength", "maxLength"),
   ("LIST", "minLength", "maxLength")]

/-- C8: for each of the six kinds with a cross-attribute ordering invariant
(TEXT, LONGTEXT, MEDIA, LINK, LIST on minLength/maxLength; NUMBER on
minValue/maxValue), the catalog attaches the ordering to the lower
attribute's constraint object as an explicit `lessThanAttribute` rule, and
whenever the lower attribute's value is not strictly below the upper one
the accumulating per-field pass reports a `notLessThan` error for that
attribute under the field's name. -/
theorem C8_ordering_invariant (fields : List FieldDef) (f : FieldDef)
    (low high : String) (a b : ℚ)
    (hkind : (f.fieldType, low, high) ∈ orderedBoundsKinds)
    (hmem : f ∈ fields) (hnodup : (fields.map fieldKey).Nodup)
    (hlo : f.getAttr low = some (.num a))
    (hhi : f.getAttr high = some (.num b))
    (hord : ¬ a < b) :
    (attrConstraintFor f.fieldType low).lessThanAttribute = some high ∧
    Violation.notLessThan ∈
      violationsAt (fieldErrorsAt (accumulateFieldErrors fields) (fieldKey f)) low := by
  simp only [orderedBoundsKinds, List.mem_cons, List.not_mem_nil, or_false,
    Prod.mk.injEq] at hkind
  rcases hkind with ⟨ht, hl, hh⟩ | ⟨ht, hl, hh⟩ | ⟨ht, hl, hh⟩ | ⟨ht, hl, hh⟩ |
    ⟨ht, hl, hh⟩ | ⟨ht, hl, hh⟩ <;>
    subst hl <;> subst hh <;>
    refine ⟨by rw [ht]; decide, ?_⟩ <;>
    [(exact ordering_violation_reported fields f _ _
       { presence := some false,
         numericality := some { greaterThanOrEqualTo := some 0,
                                lessThanOrEqualTo := some 999, onlyInteger := true },
         lessThanAttribute := some "maxLength" } a b hmem hnodup
       (by rw [ht]; decide) (by rw [ht]; decide) rfl hlo hhi hord);
     (exact ordering_violation_reported fields f _ _
       { presence := some false,
         numericality := some { greaterThanOrEqualTo := some 0,
                                lessThanOrEqualTo := some 29999, onlyInteger := true },
         lessThanAttribute := some "maxLength" } a b hmem hnodup
       (by rw [ht]; decide) (by rw [ht]; decide) rfl hlo hhi hord);
     (exact ordering_violation_reported fields f _ _
       { numericality := some {},
         lessThanAttribute := some "maxValue" } a b hmem hnodup
       (by rw [ht]; decide) (by rw [ht]; decide) rfl hlo hhi hord);
     (exact ordering_violation_reported fields f _ _
       { presence := some false,
         numericality := some { greaterThanOrEqualTo := some 0,
                                lessThanOrEqualTo := some 999, onlyInteger := true },
         lessThanAttribute := some "maxLength" } a b hmem hnodup
       (by rw [ht]; decide) (by rw [ht]; decide) rfl hlo hhi hord);
     (exact ordering_violation_reported fields f _ _
       { presence := some false,
         numericality := some { greaterThanOrEqualTo := some 0,
                                lessThanOrEqualTo := some 999, onlyInteger := true },
         lessThanAttribute := some "maxLength" } a b hmem hnodup
       (by rw [ht]; decide) (by rw [ht]; decide) rfl hlo hhi hord);
     (exact ordering_violation_reported fields f _ _
       { presence := some false,
         numericality := some { greaterThanOrEqualTo := some 0,
                                lessThanOrEqualTo := some 999, onlyInteger := true },
         lessThanAttribute := some "maxLength" } a b hmem hnodup
       (by rw [ht]; decide) (by rw [ht]; decide) rfl hlo hhi hord)]

/-- A TEXT field whose minLength (10) is not strictly below its
maxLength (5). -/
def badOrderTextField : FieldDef :=
  { fieldType := "TEXT", name := some "heading", label := some "Heading",
    description := some "", required := some true, disabled := some false,
    minLength := some 10, maxLength := some 5, format := some "plaintext" }

/-- Witness for C8 at a concrete TEXT field with minLength 10 and
maxLength 5. -/
theorem C8_ordering_invariant_witness :
    (badOrderTextField.fieldType, "minLength", "maxLength") ∈ orderedBoundsKinds ∧
    badOrderTextField ∈ [badOrderTextField] ∧
    (([badOrderTextField] : List FieldDef).map fieldKey).Nodup ∧
    badOrderTextField.getAttr "minLength" = some (.num 10) ∧
    badOrderTextField.getAttr "maxLength" = some (.num 5) ∧
    ¬ (10 : ℚ) < 5 ∧
    ((attrConstraintFor badOrderTextField.fieldType "minLength").lessThanAttribute =
      some "maxLength" ∧
     Violation.notLessThan ∈
       violationsAt (fieldErrorsAt (accumulateFieldErrors [badOrderTextField])
         (fieldKey badOrderTextField)) "minLength") := by
  refine ⟨by decide, by decide, by decide, by decide, by decide, by decide, ?_⟩
  exact C8_ordering_invariant [badOrderTextField] badOrderTextField
    "minLength" "maxLength" 10 5 (by decide) (by decide) (by decide)
    (by decide) (by decide) (by decide)

/-- When the whole value ruleset reports no violation on an array value and
the ruleset carries a `choicesUnion` rule, the choices check itself is
clean. -/
theorem choices_component_clean (ext : ExternalCheckers) (c : ValueConstraints)
    (v : Value) (cs : List String)
    (hcu : c.choicesUnion = some cs)
    (hok : checkValueConstraints ext c (some v) = []) :
    checkChoicesUnion cs v = [] := by
  delta checkValueConstraints at hok
  have h := (List.append_eq_nil.mp hok).2
  have h := (List.append_eq_nil.mp h).1
  have h := (List.append_eq_nil.mp h).1
  have h := (List.append_eq_nil.mp h).1
  have h := (List.append_eq_nil.mp h).1
  have h := (List.append_eq_nil.mp h).1
  have h := (List.append_eq_nil.mp h).1
  have h := (List.append_eq_nil.mp h).2
  rw [hcu] at h
  exact h

/-- C6: for a non-disabled CHOICE field with choice list `cs`, the compiled
value ruleset carries the `choicesUnion` rule over `cs` (so a record that
passes it can only submit members of `cs`, proved here for the submitted
array's elements), plus `arrayLength {is: 1}` when the format is `single`,
and `arrayLength {minimum: 1}` together with `uniqueArray` when the format
is `multiple`. -/
theorem C6_choice_value_rules (f : FieldDef) (projectId : Int) (cs : List String)
    (ext : ExternalCheckers) (vs : List Atom) (x : Atom)
    (ht : f.fieldType = "CHOICE") (hc : f.choices = some cs)
    (_hd : f.disabled ≠ some true) (hx : x ∈ vs)
    (hok : checkValueConstraints ext (buildFieldConstraints f projectId)
      (some (.arr vs)) = []) :
    (buildFieldConstraints f projectId).choicesUnion = some cs ∧
    (f.format = some "single" →
      (buildFieldConstraints f projectId).arrayLength = some { is := some 1 }) ∧
    (f.format = some "multiple" →
      (buildFieldConstraints f projectId).arrayLength = some { minimum := some 1 } ∧
      (buildFieldConstraints f projectId).uniqueArray = true) ∧
    x ∈ cs.map Atom.str := by
  have hcu : (buildFieldConstraints f projectId).choicesUnion = some cs := by
    simp [buildFieldConstraints, ht, hc]
    split_ifs <;> rfl
  have hsingle : f.format = some "single" →
      (buildFieldConstraints f projectId).arrayLength = some { is := some 1 } := by
    intro hf
    simp [buildFieldConstraints, ht, hc, hf]
  have hmultiple : f.format = some "multiple" →
      (buildFieldConstraints f projectId).arrayLength = some { minimum := some 1 } ∧
      (buildFieldConstraints f projectId).uniqueArray = true := by
    intro hf
    constructor <;>
      simp [buildFieldConstraints, ht, hc, hf]
  have hch := choices_component_clean ext _ (.arr vs) cs hcu hok
  have hrfl : checkChoicesUnion cs (.arr vs) =
      (if vs.all (fun a => match a with | .str s => cs.contains s | _ => false)
       then [] else [.notInChoices]) := rfl
  rw [hrfl] at hch
  cases hall : vs.all (fun a => match a with | .str s => cs.contains s | _ => false) with
  | false =>
    rw [hall] at hch
    simp at hch
  | true =>
    have hpx := List.all_eq_true.mp hall x hx
    refine ⟨hcu, hsingle, hmultiple, ?_⟩
    cases x with
    | str s =>
      have hs : s ∈ cs := by simpa using hpx
      exact List.mem_map_of_mem Atom.str hs
    | num q => exact absurd hpx (by simp)
    | bool b => exact absurd hpx (by simp)

/-- A non-disabled CHOICE field with format `single` and choices
`["a", "b", "c"]`. -/
def choiceSingleField : FieldDef :=
  { fieldType := "CHOICE", name := some "pick", label := some "Pick",
    description := some "", required := some false, disabled := some false,
    choices := some ["a", "b", "c"], format := some "single" }

/-- Witness for C6: the value `["a"]` passes the single-format CHOICE
ruleset, and its element is a member of the choices. -/
theorem C6_choice_value_rules_witness :
    choiceSingleField.fieldType = "CHOICE" ∧
    choiceSingleField.choices = some ["a", "b", "c"] ∧
    choiceSingleField.disabled ≠ some true ∧
    Atom.str "a" ∈ [Atom.str "a"] ∧
    checkValueConstraints nullCheckers (buildFieldConstraints choiceSingleField 1)
      (some (.arr [Atom.str "a"])) = [] ∧
    ((buildFieldConstraints choiceSingleField 1).choicesUnion = some ["a", "b", "c"] ∧
     (choiceSingleField.format = some "single" →
       (buildFieldConstraints choiceSingleField 1).arrayLength = some { is := some 1 }) ∧
     (choiceSingleField.format = some "multiple" →
       (buildFieldConstraints choiceSingleField 1).arrayLength =
         some { minimum := some 1 } ∧
       (buildFieldConstraints choiceSingleField 1).uniqueArray = true) ∧
     Atom.str "a" ∈ (["a", "b", "c"].map Atom.str)) := by
  refine ⟨by decide, by decide, by decide, by decide, by decide, ?_⟩
  exact C6_choice_value_rules choiceSingleField 1 ["a", "b", "c"] nullCheckers
    [Atom.str "a"] (Atom.str "a") (by decide) (by decide) (by decide) (by decide)
    (by decide)

/-- C10: in the catalog's NUMBER constraint set, `minValue` and `maxValue`
carry no presence rule — only numericality (plus the ordering on
`minValue`) — unlike the length-bounded kinds, whose `minLength`/`maxLength`
all demand presence; hence a NUMBER field omitting both bounds receives no
accumulated error under `minValue` or `maxValue`; yet the schema document's
NUMBER shape lists both in its `required` list. -/
theorem C10_number_bounds_optional (f : FieldDef)
    (ht : f.fieldType = "NUMBER") (hmin : f.minValue = none) (hmax : f.maxValue = none) :
    (attrConstraintFor "NUMBER" "minValue").presence = none ∧
    (attrConstraintFor "NUMBER" "minValue").numericality = some {} ∧
    (attrConstraintFor "NUMBER" "minValue").lessThanAttribute = some "maxValue" ∧
    (attrConstraintFor "NUMBER" "maxValue").presence = none ∧
    (attrConstraintFor "NUMBER" "maxValue").numericality = some {} ∧
    (["TEXT", "LONGTEXT", "MEDIA", "LINK", "LIST"].all (fun k =>
      ((attrConstraintFor k "minLength").presence == some false) &&
      ((attrConstraintFor k "maxLength").presence == some false)) = true) ∧
    "minValue" ∉ (validateFieldDef f).map Prod.fst ∧
    "maxValue" ∉ (validateFieldDef f).map Prod.fst ∧
    "minValue" ∈ numberShape.required ∧
    "maxValue" ∈ numberShape.required := by
  have hconstr : constraintsFor f.fieldType =
      commonFieldConstraints ++ numberFieldConstraints := by
    rw [ht]
    rfl
  refine ⟨by decide, by decide, by decide, by decide, by decide, by decide,
    ?_, ?_, by decide, by decide⟩ <;>
  · intro hk
    rcases List.mem_map.1 hk with ⟨p, hp, hfst⟩
    rw [validateFieldDef, validateObject, hconstr] at hp
    rcases List.mem_filterMap.1 hp with ⟨q, hq, hpq⟩
    simp only [commonFieldConstraints, numberFieldConstraints, List.cons_append,
      List.nil_append] at hq
    fin_cases hq <;> dsimp only at hpq
    on_goal 7 =>
      simp [checkAttrConstraint, FieldDef.getAttr, hmin, hmax] at hpq
    on_goal 7 =>
      simp [checkAttrConstraint, FieldDef.getAttr, hmin, hmax] at hpq
    all_goals
      split at hpq
    all_goals
      first
      | exact Option.noConfusion hpq
      | (injection hpq with h
         subst h
         simp at hfst)

/-- A NUMBER field that omits both minValue and maxValue. -/
def numberNoBoundsField : FieldDef :=
  { fieldType := "NUMBER", name := some "rating", label := some "Rating",
    description := some "", required := some false, disabled := some false,
    format := some "integer" }

/-- Witness for C10 at a concrete bound-less NUMBER field. -/
theorem C10_number_bounds_optional_witness :
    numberNoBoundsField.fieldType = "NUMBER" ∧
    numberNoBoundsField.minValue = none ∧
    numberNoBoundsField.maxValue = none ∧
    ("minValue" ∉ (validateFieldDef numberNoBoundsField).map Prod.fst ∧
     "maxValue" ∉ (validateFieldDef numberNoBoundsField).map Prod.fst ∧
     "minValue" ∈ numberShape.required ∧
     "maxValue" ∈ numberShape.required) := by
  have h := C10_number_bounds_optional numberNoBoundsField rfl rfl rfl
  exact ⟨rfl, rfl, rfl, h.2.2.2.2.2.2.1, h.2.2.2.2.2.2.2.1, h.2.2.2.2.2.2.2.2.1,
    h.2.2.2.2.2.2.2.2.2⟩
